import Mathlib

/-!
Verification of the interface-analysis core of `pdb_analyser.py`
(class `PDBAnalyser`): interface-residue detection, confidence/error
aggregation, binding-energy adapter, the pi-score adapter and the
orchestrator.  Machine reals (numpy floats) are idealised as `ℚ`
(and `ℝ` for the square root in distance comparisons); Python code
that can raise is embedded with `Option`/`Except`.
-/

/-- A 3-D coordinate, the x/y/z columns of one atom row. -/
structure Point3 where
  x : ℚ
  y : ℚ
  z : ℚ
  deriving DecidableEq, Repr

/-- Default coordinate used only as the (never reached) `getD` fallback. -/
def origin : Point3 := ⟨0, 0, 0⟩

/-- Squared Euclidean distance.  The source computes
`np.sqrt(np.sum((a - b)**2))` and compares it with the cutoff; we keep the
squared form (the sum of squares) and relate it to the square root on `ℝ`
in the theorems. -/
def sqDist (p q : Point3) : ℚ :=
  (p.x - q.x) * (p.x - q.x) + (p.y - q.y) * (p.y - q.y) + (p.z - q.z) * (p.z - q.z)

/-- One row of a per-chain slice of `self.pdb_df`: the columns
`residue_number`, `residue_name`, `atom_name` and the coordinates. -/
structure AtomRecord where
  residue_index : ℕ
  residue_name : String
  atom_name : String
  coord : Point3
  deriving DecidableEq, Repr

/-- The boolean mask of `retrieve_C_beta_coords`:
the atom_name column equals "CB", or the residue_name column equals "GLY" and the atom_name column equals "CA". -/
def cBetaPred (r : AtomRecord) : Prop :=
  r.atom_name = "CB" ∨ (r.residue_name = "GLY" ∧ r.atom_name = "CA")

instance (r : AtomRecord) : Decidable (cBetaPred r) := by
  unfold cBetaPred; infer_instance

/-- The rows of `chain_df[mask]` in `retrieve_C_beta_coords`. -/
def retrieve_C_beta_rows (chain_df : List AtomRecord) : List AtomRecord :=
  chain_df.filter (fun r => decide (cBetaPred r))

/-- `retrieve_C_beta_coords`: the x/y/z coordinate value array of the masked rows. -/
def retrieve_C_beta_coords (chain_df : List AtomRecord) : List Point3 :=
  (retrieve_C_beta_rows chain_df).map (fun r => r.coord)

/-- The residue indices of the selected representative rows (used to state
the one-representative-per-residue invariant). -/
def repResidueIndices (chain_df : List AtomRecord) : List ℕ :=
  (retrieve_C_beta_rows chain_df).map (fun r => r.residue_index)

/-- The `(i, j)` index pairs produced by
`np.where(distance_mtx < cutoff)` in `obtain_interface_residues`:
row-major enumeration of the entries of the pairwise distance matrix whose
distance is strictly below the cutoff.  `np.sqrt(s) < cutoff` is encoded as
`s < cutoff * cutoff`, which agrees with it for a nonnegative cutoff. -/
def interfacePairs (A B : List Point3) (cutoff : ℚ) : List (ℕ × ℕ) :=
  (List.range A.length).flatMap (fun i =>
    ((List.range B.length).filter
        (fun j => decide (sqDist (A.getD i origin) (B.getD j origin) < cutoff * cutoff))).map
      (fun j => (i, j)))

/-- `obtain_interface_residues`: computes the representative coordinates of
both chains, selects the index pairs below the cutoff, and returns the two
parallel index arrays of `np.where`, or `None` when no pair qualifies. -/
def obtain_interface_residues (chain_df_1 chain_df_2 : List AtomRecord) (cutoff : ℚ) :
    Option (List ℕ × List ℕ) :=
  let ps := interfacePairs (retrieve_C_beta_coords chain_df_1)
    (retrieve_C_beta_coords chain_df_2) cutoff
  if ps = [] then none
  else some (ps.map Prod.fst, ps.map Prod.snd)

/-- `calculate_average_pae`: sums `pae_mtx[i, j] + pae_mtx[j, i]` over
`zip(chain_1_residues, chain_2_residues)` and divides by
`2 * len(chain_1_residues)`.  `none` embeds the `ZeroDivisionError` the
source raises when `chain_1_residues` is empty (`0 / 0`). -/
def calculate_average_pae (pae_mtx : ℕ → ℕ → ℚ)
    (chain_1_residues chain_2_residues : List ℕ) : Option ℚ :=
  let total_num := chain_1_residues.length
  let pae_sum := ((chain_1_residues.zip chain_2_residues).map
    (fun p => pae_mtx p.1 p.2 + pae_mtx p.2 p.1)).sum
  if total_num = 0 then none
  else some (pae_sum / (2 * (total_num : ℚ)))

/-- Ordered insertion without duplication, the building block of `pySet`. -/
def insertAsc (n : ℕ) : List ℕ → List ℕ
  | [] => [n]
  | m :: ms =>
    if n < m then n :: m :: ms
    else if n = m then m :: ms
    else m :: insertAsc n ms

/-- Embeds Python `set(xs)` for lists of small nonnegative integers: the
deduplicated elements in ascending order, which is the CPython iteration
order for small ints (`hash(n) = n`). -/
def pySet (xs : List ℕ) : List ℕ := xs.foldr insertAsc []

/-- `calculate_average_plddt`: deduplicates both index arrays with `set`,
then sums `chain_1_plddt[i] + chain_2_plddt[j]` over
`zip(set(chain_1_residues), set(chain_2_residues))` — note the truncation
to the shorter set — and divides by `len(set(..)) + len(set(..))`.
`none` embeds the `ZeroDivisionError` raised when both arrays are empty. -/
def calculate_average_plddt (chain_1_plddt chain_2_plddt : List ℚ)
    (chain_1_residues chain_2_residues : List ℕ) : Option ℚ :=
  let s1 := pySet chain_1_residues
  let s2 := pySet chain_2_residues
  let total_num := s1.length + s2.length
  let plddt_sum := ((s1.zip s2).map
    (fun p => chain_1_plddt.getD p.1 0 + chain_2_plddt.getD p.2 0)).sum
  if total_num = 0 then none
  else some (plddt_sum / (total_num : ℚ))

/-- State of a Bio.PDB writer object: the structure it currently holds.
Atoms are abstracted to natural-number identifiers; a structure is its
list of atoms. -/
structure PdbWriter where
  held : Option (List ℕ)

/-- The set_structure method of the Bio.PDB writer: REPLACES the held structure (it does not add to
it). -/
def PdbWriter.set_structure (_w : PdbWriter) (s : List ℕ) : PdbWriter := ⟨some s⟩

/-- The save method of the Bio.PDB writer: writes the currently held structure. -/
def PdbWriter.save (w : PdbWriter) : List ℕ := w.held.getD []

/-- The structure written to the first temporary file of
`calculate_binding_energy`: `set_structure(chain_1)`, `set_structure(chain_2)`,
then `save` — the file the "complex" pose is read from. -/
def complexStructureOf (chain_1_structure chain_2_structure : List ℕ) : List ℕ :=
  (((⟨none⟩ : PdbWriter).set_structure chain_1_structure).set_structure
    chain_2_structure).save

/-- `calculate_binding_energy` with the pyrosetta score function abstracted
as an oracle `sfxn` on structures: scores the saved complex file and each
isolated chain file and returns the difference. -/
def calculate_binding_energy (sfxn : List ℕ → ℚ)
    (chain_1_structure chain_2_structure : List ℕ) : ℚ :=
  let complex_pose := complexStructureOf chain_1_structure chain_2_structure
  let chain_1_pose := ((⟨none⟩ : PdbWriter).set_structure chain_1_structure).save
  let chain_2_pose := ((⟨none⟩ : PdbWriter).set_structure chain_2_structure).save
  sfxn complex_pose - sfxn chain_1_pose - sfxn chain_2_pose

/-- A concrete energy oracle (sum of atom id + 1 over the structure) used
to evaluate `calculate_binding_energy` on concrete chains. -/
def atomScore (s : List ℕ) : ℚ := (s.map (fun a => (a : ℚ) + 1)).sum

/-- A Python value, as far as hashability is concerned: strings are
hashable, lists and dicts are not. -/
inductive PyVal where
  | str (s : String)
  | list (xs : List PyVal)
  | dict (entries : List (String × PyVal))

/-- Python hashability of a value. -/
def PyVal.isHashable : PyVal → Bool
  | .str _ => true
  | .list _ => false
  | .dict _ => false

/-- A Python set display `{e1, ..., en}`: hashes every element, raising
`TypeError` if any element is unhashable (as a `dict` is). -/
def pySetLiteral (elems : List PyVal) : Except String (List PyVal) :=
  if elems.all PyVal.isHashable then Except.ok elems
  else Except.error "TypeError: unhashable type"

/-- The sentinel column names built in the `except:` branch of
`run_and_summarise_pi_score`. -/
def piScoreSentinelKeys : List String :=
  "pdb,chains,Num_intf_residues,Polar,Hydrophobhic,Charged,contact_pairs,contact_pairs, sc, hb, sb, int_solv_en, int_area, pvalue,pi_score".splitOn ","

/-- The `except:` branch of `run_and_summarise_pi_score` (taken when the
subprocess fails or its output files are absent): builds the sentinel dict
and then evaluates `pd.DataFrame.from_dict({ filtered_df })` — whose
argument is a set display containing a dict, so the set display itself
raises `TypeError` before any sentinel row can be returned. -/
def piScoreFailureBranch (_interface_name : String) : Except String (List PyVal) :=
  let filtered_df : PyVal :=
    PyVal.dict (piScoreSentinelKeys.map (fun k => (k, PyVal.list [PyVal.str "None"])))
  pySetLiteral [filtered_df]

/-- An interface label, the pair of chain ids rendered by the source as the
string `chain_1 + "_" + chain_2` (for single-character PDB chain ids the
rendering and `split("_")` are inverse to each other, so we keep the pair). -/
abbrev Label := String × String

/-- The mirrored row: same metric payload, chain order of the label
reversed. -/
def mirrorRow {V : Type} (r : Label × V) : Label × V := ((r.1.2, r.1.1), r.2)

/-- The mirroring loop of `run_and_summarise_pi_score`
(`for interface in filtered_df.interface: ... pd.concat([filtered_df, subdf])`):
iterates over the snapshot of labels taken at loop entry, and for each label
appends a relabelled copy of the currently matching rows. -/
def mirrorPass {V : Type} (t : List (Label × V)) : List (Label × V) :=
  (t.map (fun r => r.1)).foldl
    (fun cur lbl =>
      cur ++ (cur.filter (fun r => decide (r.1 = lbl))).map (fun r => ((lbl.2, lbl.1), r.2)))
    t

/-- Embeds pd.merge on the interface column with the default inner join:
for each left row, one output row per right row carrying the same label. -/
def innerMergeRows {V W : Type} (left : List (Label × V)) (right : List (Label × W)) :
    List (Label × (V × W)) :=
  left.flatMap (fun a =>
    (right.filter (fun b => decide (b.1 = a.1))).map (fun b => (a.1, (a.2, b.2))))

/-- The bookkeeping columns dropped after the merge. -/
def piScoreDropCols : List String := ["#PDB", "pdb", " pvalue", "chains", "predicted_class"]

/-- The nonempty-data branch of `run_and_summarise_pi_score`: mirror the
feature table, inner-merge with the score table on the interface label,
then `try:` drop the bookkeeping columns and mirror again, `except: pass`
(pandas `drop` raises when any listed column is absent, in which case the
un-remirrored merge is returned as-is).  Each row carries its label and an
opaque metric payload; the column lists of the two tables decide whether
the drop succeeds. -/
def runSuccessBranch {V W : Type} (filteredCols piCols : List String)
    (filtered : List (Label × V)) (piScore : List (Label × W)) :
    List (Label × (V × W)) :=
  let f1 := mirrorPass filtered
  let merged := innerMergeRows f1 piScore
  if piScoreDropCols.all (fun c => (filteredCols ++ piCols).contains c) then mirrorPass merged
  else merged

/-- Embeds the final pd.merge of the orchestrator, a left join on the
interface column: every
left row is kept; rows with no matching right label get `none` for the
right columns (pandas NaN). -/
def leftMerge {V W : Type} (left : List (Label × V)) (right : List (Label × W)) :
    List (Label × V × Option W) :=
  left.flatMap (fun a =>
    match right.filter (fun b => decide (b.1 = a.1)) with
    | [] => [(a.1, a.2, none)]
    | bs => bs.map (fun b => (a.1, a.2, some b.2)))

/-- The multimeric branch of `PDBAnalyser.__call__` with the per-pair
computations abstracted: the loop builds one measurement row per chain pair
and rebinds `pi_score_df` on every iteration, so after the loop only the
pi-score fragment of the LAST pair is live; the final left merge uses only that
fragment. -/
def pdbAnalyserCall {V W : Type} (pairs : List Label)
    (piScoreFor : Label → List (Label × W)) (measurementsFor : Label → V) :
    List (Label × V × Option W) :=
  let output_df := pairs.map (fun p => (p, measurementsFor p))
  let pi_score_df :=
    match pairs.getLast? with
    | some p => piScoreFor p
    | none => []
  leftMerge output_df pi_score_df

/-- Chain dataframe used in concrete witnesses: one alanine with a CB atom. -/
def chainDfA : List AtomRecord := [⟨0, "ALA", "CB", ⟨0, 0, 0⟩⟩]

/-- Chain dataframe used in concrete witnesses: one alanine with a CB atom
one length unit away from `chainDfA`. -/
def chainDfB : List AtomRecord := [⟨0, "ALA", "CB", ⟨1, 0, 0⟩⟩]

/-- A (well-formed) chain with a glycine represented by its CA atom, an
alanine represented by its CB atom, and a backbone nitrogen row that has no
representative. -/
def chainDfWellFormed : List AtomRecord :=
  [⟨0, "GLY", "CA", ⟨0, 0, 0⟩⟩, ⟨1, "ALA", "CB", ⟨1, 0, 0⟩⟩, ⟨2, "ALA", "N", ⟨2, 0, 0⟩⟩]

/-! ### Helper lemmas -/

theorem insertAsc_ne_nil (n : ℕ) (l : List ℕ) : insertAsc n l ≠ [] := by
  cases l with
  | nil => simp [insertAsc]
  | cons m ms =>
    simp only [insertAsc]
    split
    · simp
    · split <;> simp

theorem mem_insertAsc {a n : ℕ} : ∀ {l : List ℕ}, a ∈ insertAsc n l ↔ a = n ∨ a ∈ l := by
  intro l
  induction l with
  | nil => simp [insertAsc]
  | cons m ms ih =>
    simp only [insertAsc]
    split
    · simp only [List.mem_cons]
    · split
      · rename_i hlt heq
        subst heq
        simp only [List.mem_cons]
        tauto
      · simp only [List.mem_cons, ih]
        tauto

theorem pairwise_lt_insertAsc (n : ℕ) :
    ∀ {l : List ℕ}, l.Pairwise (· < ·) → (insertAsc n l).Pairwise (· < ·) := by
  intro l
  induction l with
  | nil => intro _; simp [insertAsc]
  | cons m ms ih =>
    intro h
    rw [List.pairwise_cons] at h
    obtain ⟨hm, hms⟩ := h
    simp only [insertAsc]
    split
    · rename_i hlt
      rw [List.pairwise_cons]
      refine ⟨?_, ?_⟩
      · intro b hb
        rcases List.mem_cons.1 hb with rfl | hbms
        · exact hlt
        · exact lt_trans hlt (hm b hbms)
      · rw [List.pairwise_cons]
        exact ⟨hm, hms⟩
    · split
      · rw [List.pairwise_cons]
        exact ⟨hm, hms⟩
      · rename_i hnlt hne
        rw [List.pairwise_cons]
        refine ⟨?_, ih hms⟩
        intro b hb
        rcases mem_insertAsc.1 hb with rfl | hbms
        · omega
        · exact hm b hbms

theorem pySet_cons (x : ℕ) (xs : List ℕ) : pySet (x :: xs) = insertAsc x (pySet xs) := rfl

theorem pySet_sorted (xs : List ℕ) : (pySet xs).Pairwise (· < ·) := by
  induction xs with
  | nil => exact List.Pairwise.nil
  | cons x xs ih =>
    rw [pySet_cons]
    exact pairwise_lt_insertAsc x ih

theorem pySet_nodup (xs : List ℕ) : (pySet xs).Nodup :=
  (pySet_sorted xs).imp (fun h => Nat.ne_of_lt h)

theorem mem_pySet {a : ℕ} : ∀ {xs : List ℕ}, a ∈ pySet xs ↔ a ∈ xs := by
  intro xs
  induction xs with
  | nil => simp [pySet]
  | cons x xs ih =>
    rw [pySet_cons, mem_insertAsc, ih, List.mem_cons]

theorem pySet_ne_nil {xs : List ℕ} (h : xs ≠ []) : pySet xs ≠ [] := by
  cases xs with
  | nil => exact absurd rfl h
  | cons x xs =>
    rw [pySet_cons]
    exact insertAsc_ne_nil x (pySet xs)

theorem sum_map_zip_add {α β : Type} (f : α → ℚ) (g : β → ℚ) :
    ∀ (xs : List α) (ys : List β), xs.length = ys.length →
      ((xs.zip ys).map (fun p => f p.1 + g p.2)).sum = (xs.map f).sum + (ys.map g).sum := by
  intro xs
  induction xs with
  | nil =>
    intro ys h
    cases ys with
    | nil => simp
    | cons y ys => simp at h
  | cons x xs ih =>
    intro ys h
    cases ys with
    | nil => simp at h
    | cons y ys =>
      simp only [List.zip_cons_cons, List.map_cons, List.sum_cons, List.length_cons] at h ⊢
      rw [ih ys (by omega)]
      ring

/-! ### Claim C1 -/

/-- Claim C1 counterexample: with confidence arrays `[10, 20]` and `[30, 40]`
and residue pairs `{(0,0), (0,1)}` the deduplicated index sets have sizes 1
and 2, `zip` truncates to the shorter set, and the result is `40 / 3`, not
the claimed `(10 + (30 + 40)) / 3 = 80 / 3`: `calculate_average_plddt` does
not always sum over every unique index of both sides. -/
theorem calculate_average_plddt_not_full_sum :
    calculate_average_plddt [10, 20] [30, 40] [0, 0] [0, 1] ≠ some ((10 + (30 + 40)) / 3) := by
  have h1 : pySet [0, 0] = [0] := rfl
  have h2 : pySet [0, 1] = [0, 1] := rfl
  simp only [calculate_average_plddt, h1, h2, List.zip_cons_cons, List.zip_nil_right,
    List.map_cons, List.map_nil, List.sum_cons, List.sum_nil,
    List.getD_cons_succ, List.getD_cons_zero, List.length_cons, List.length_nil]
  norm_num

/-- Claim C1 (amended): whenever the two deduplicated residue index sets
have EQUAL cardinality (so the `zip` over the two sets drops nothing) and
the pair set is nonempty, `calculate_average_plddt` returns the sum of
`chain_1_plddt[i]` over the unique chain-1 indices plus the sum of
`chain_2_plddt[j]` over the unique chain-2 indices, divided by the total
number of unique indices.  In particular the claimed concrete evaluation to
`25.0` holds (see the witness). -/
theorem calculate_average_plddt_spec (chain_1_plddt chain_2_plddt : List ℚ)
    (chain_1_residues chain_2_residues : List ℕ)
    (hlen : (pySet chain_1_residues).length = (pySet chain_2_residues).length)
    (hne : chain_1_residues ≠ []) :
    calculate_average_plddt chain_1_plddt chain_2_plddt chain_1_residues chain_2_residues =
      some ((((pySet chain_1_residues).map (fun i => chain_1_plddt.getD i 0)).sum +
          ((pySet chain_2_residues).map (fun j => chain_2_plddt.getD j 0)).sum) /
        (((pySet chain_1_residues).length + (pySet chain_2_residues).length : ℕ) : ℚ)) := by
  have h1 : pySet chain_1_residues ≠ [] := pySet_ne_nil hne
  have htot : (pySet chain_1_residues).length + (pySet chain_2_residues).length ≠ 0 := by
    intro h0
    exact h1 (List.eq_nil_of_length_eq_zero (Nat.eq_zero_of_add_eq_zero_right h0))
  simp only [calculate_average_plddt]
  rw [if_neg htot]
  rw [sum_map_zip_add (fun i => chain_1_plddt.getD i 0) (fun j => chain_2_plddt.getD j 0)
    (pySet chain_1_residues) (pySet chain_2_residues) hlen]

/-- Claim C1 witness: the claimed concrete instance — confidence arrays
`[10, 20]` and `[30, 40]`, residue pairs `{(0,0), (1,1)}` — evaluates to
`25`. -/
theorem calculate_average_plddt_spec_witness :
    calculate_average_plddt [10, 20] [30, 40] [0, 1] [0, 1] = some 25 := by
  rw [calculate_average_plddt_spec [10, 20] [30, 40] [0, 1] [0, 1] (by decide) (by decide)]
  have h2 : pySet [0, 1] = [0, 1] := rfl
  rw [h2]
  simp only [List.map_cons, List.map_nil, List.sum_cons, List.sum_nil,
    List.getD_cons_succ, List.getD_cons_zero, List.length_cons, List.length_nil]
  norm_num

/-! ### Claims C6 and C8 -/

theorem obtain_interface_residues_some {chain_df_1 chain_df_2 : List AtomRecord} {cutoff : ℚ}
    {r1 r2 : List ℕ}
    (h : obtain_interface_residues chain_df_1 chain_df_2 cutoff = some (r1, r2)) :
    interfacePairs (retrieve_C_beta_coords chain_df_1) (retrieve_C_beta_coords chain_df_2)
        cutoff ≠ [] ∧
      r1 = (interfacePairs (retrieve_C_beta_coords chain_df_1)
          (retrieve_C_beta_coords chain_df_2) cutoff).map Prod.fst ∧
      r2 = (interfacePairs (retrieve_C_beta_coords chain_df_1)
          (retrieve_C_beta_coords chain_df_2) cutoff).map Prod.snd := by
  simp only [obtain_interface_residues] at h
  by_cases hps : interfacePairs (retrieve_C_beta_coords chain_df_1)
      (retrieve_C_beta_coords chain_df_2) cutoff = []
  · rw [if_pos hps] at h
    exact absurd h (by simp)
  · rw [if_neg hps] at h
    rw [Option.some.injEq, Prod.mk.injEq] at h
    exact ⟨hps, h.1.symm, h.2.symm⟩

/-- Claim C6 counterexample: applied directly to an empty residue-pair set,
`calculate_average_pae` reaches `pae_sum / (2 * total_num)` with
`total_num = 0`, i.e. Python `0 / 0` — a raised `ZeroDivisionError`
(embedded as `none`) — rather than any "no interface" signal. -/
theorem calculate_average_pae_empty_raises :
    calculate_average_pae (fun _ _ => 0) [] [] = none := by decide

/-- Claim C6 (amended): the division by zero is prevented structurally one
level up — `obtain_interface_residues` returns `None` for an empty
interface and the orchestrator checks that before aggregating — so whenever
the detector reports an interface, `calculate_average_pae` on its result
arrays never takes the zero-denominator branch. -/
theorem calculate_average_pae_after_detector (pae_mtx : ℕ → ℕ → ℚ)
    (chain_df_1 chain_df_2 : List AtomRecord) (cutoff : ℚ) (r1 r2 : List ℕ)
    (h : obtain_interface_residues chain_df_1 chain_df_2 cutoff = some (r1, r2)) :
    (calculate_average_pae pae_mtx r1 r2).isSome = true := by
  obtain ⟨hne, h1, _⟩ := obtain_interface_residues_some h
  have hnil : r1 ≠ [] := by
    rw [h1]
    intro hmap
    exact hne (List.map_eq_nil_iff.1 hmap)
  simp only [calculate_average_pae]
  rw [if_neg (fun h0 => hnil (List.eq_nil_of_length_eq_zero h0))]
  rfl

theorem detector_eval_AB : obtain_interface_residues chainDfA chainDfB 12 = some ([0], [0]) := by
  have hA : retrieve_C_beta_coords chainDfA = [⟨0, 0, 0⟩] := rfl
  have hB : retrieve_C_beta_coords chainDfB = [⟨1, 0, 0⟩] := rfl
  have hrange : List.range 1 = [0] := rfl
  simp only [obtain_interface_residues, interfacePairs, hA, hB, List.length_cons,
    List.length_nil, hrange, List.flatMap_cons, List.flatMap_nil, List.filter_cons,
    List.filter_nil, List.getD_cons_zero, decide_eq_true (by norm_num [sqDist] :
      sqDist (⟨0, 0, 0⟩ : Point3) ⟨1, 0, 0⟩ < (12 : ℚ) * 12)]
  norm_num

/-- Claim C6 witness: for two one-residue chains one length unit apart and
cutoff 12 the detector reports the pair `(0, 0)`, and the aggregator on
that result returns a value (no division error). -/
theorem calculate_average_pae_after_detector_witness :
    (calculate_average_pae (fun _ _ => 0) [0] [0]).isSome = true :=
  calculate_average_pae_after_detector (fun _ _ => 0) chainDfA chainDfB 12 [0] [0]
    detector_eval_AB

/-- Claim C8: on a nonempty residue-pair set `P`, passed as the two parallel
index arrays the detector produces, `calculate_average_pae` returns the sum
over `(i, j) ∈ P` of `pae_mtx[i][j] + pae_mtx[j][i]` divided by `2 * |P|` —
both triangles of the matrix are sampled even when it is not symmetric. -/
theorem calculate_average_pae_spec (pae_mtx : ℕ → ℕ → ℚ) (P : List (ℕ × ℕ)) (hP : P ≠ []) :
    calculate_average_pae pae_mtx (P.map Prod.fst) (P.map Prod.snd) =
      some ((P.map (fun p => pae_mtx p.1 p.2 + pae_mtx p.2 p.1)).sum /
        (2 * (P.length : ℚ))) := by
  have hzip : (P.map Prod.fst).zip (P.map Prod.snd) = P := (List.zip_of_prod rfl rfl).symm
  simp only [calculate_average_pae, hzip, List.length_map]
  rw [if_neg (fun h0 => hP (List.eq_nil_of_length_eq_zero h0))]

/-- Claim C8 witness: a single pair `(0, 1)` with `pae_mtx[0][1] = 2` and
`pae_mtx[1][0] = 4` averages to `3`. -/
theorem calculate_average_pae_spec_witness :
    calculate_average_pae
        (fun i j => if i = 0 ∧ j = 1 then 2 else if i = 1 ∧ j = 0 then 4 else 0)
        ([((0 : ℕ), (1 : ℕ))].map Prod.fst) ([((0 : ℕ), (1 : ℕ))].map Prod.snd) = some 3 :=
  (calculate_average_pae_spec
      (fun i j => if i = 0 ∧ j = 1 then 2 else if i = 1 ∧ j = 0 then 4 else 0)
      [(0, 1)] (by decide)).trans
    (by
      simp only [List.map_cons, List.map_nil, List.sum_cons, List.sum_nil, List.length_cons,
        List.length_nil]
      norm_num)

/-! ### Claims C7 and C10 -/

theorem sqDist_nonneg (p q : Point3) : 0 ≤ sqDist p q := by
  unfold sqDist
  have h1 := mul_self_nonneg (p.x - q.x)
  have h2 := mul_self_nonneg (p.y - q.y)
  have h3 := mul_self_nonneg (p.z - q.z)
  linarith

theorem mem_interfacePairs {A B : List Point3} {cutoff : ℚ} {i j : ℕ} :
    (i, j) ∈ interfacePairs A B cutoff ↔
      i < A.length ∧ j < B.length ∧
        sqDist (A.getD i origin) (B.getD j origin) < cutoff * cutoff := by
  simp only [interfacePairs, List.mem_flatMap, List.mem_map, List.mem_filter, List.mem_range,
    decide_eq_true_eq]
  constructor
  · rintro ⟨a, ha, b, ⟨hb, hd⟩, heq⟩
    injection heq with hi hj
    subst hi
    subst hj
    exact ⟨ha, hb, hd⟩
  · rintro ⟨hi, hj, hd⟩
    exact ⟨i, hi, j, ⟨hj, hd⟩, rfl⟩

theorem sqrt_lt_cutoff {d c : ℚ} (hd : 0 ≤ d) (hc : 0 ≤ c) :
    Real.sqrt (d : ℝ) < (c : ℝ) ↔ d < c * c := by
  rcases eq_or_lt_of_le hc with hc0 | hcpos
  · constructor
    · intro h
      exfalso
      have hs := Real.sqrt_nonneg (d : ℝ)
      rw [← hc0] at h
      push_cast at h
      linarith
    · intro h
      exfalso
      rw [← hc0] at h
      simp at h
      linarith
  · rw [Real.sqrt_lt' (by exact_mod_cast hcpos), pow_two]
    constructor
    · intro h
      exact_mod_cast h
    · intro h
      exact_mod_cast h

/-- Claim C7: for a nonnegative cutoff, whenever `obtain_interface_residues`
reports an interface, the parallel index pairs are exactly those pairs of
representative-atom indices whose Euclidean distance is strictly below the
cutoff (pairs at distance exactly equal to the cutoff are excluded); it
returns the distinguished `none` outcome — never an error — precisely when
no pair qualifies, and in particular whenever either chain contributes zero
representative atoms. -/
theorem obtain_interface_residues_spec (chain_df_1 chain_df_2 : List AtomRecord)
    (cutoff : ℚ) (hc : 0 ≤ cutoff) :
    (∀ r1 r2, obtain_interface_residues chain_df_1 chain_df_2 cutoff = some (r1, r2) →
      ∀ i j, ((i, j) ∈ r1.zip r2 ↔
        i < (retrieve_C_beta_coords chain_df_1).length ∧
          j < (retrieve_C_beta_coords chain_df_2).length ∧
          Real.sqrt ((sqDist ((retrieve_C_beta_coords chain_df_1).getD i origin)
              ((retrieve_C_beta_coords chain_df_2).getD j origin) : ℚ) : ℝ) < (cutoff : ℝ))) ∧
    (obtain_interface_residues chain_df_1 chain_df_2 cutoff = none ↔
      ∀ i j, i < (retrieve_C_beta_coords chain_df_1).length →
        j < (retrieve_C_beta_coords chain_df_2).length →
        ¬ Real.sqrt ((sqDist ((retrieve_C_beta_coords chain_df_1).getD i origin)
            ((retrieve_C_beta_coords chain_df_2).getD j origin) : ℚ) : ℝ) < (cutoff : ℝ)) ∧
    ((retrieve_C_beta_coords chain_df_1 = [] ∨ retrieve_C_beta_coords chain_df_2 = []) →
      obtain_interface_residues chain_df_1 chain_df_2 cutoff = none) := by
  have hnone : obtain_interface_residues chain_df_1 chain_df_2 cutoff = none ↔
      interfacePairs (retrieve_C_beta_coords chain_df_1)
        (retrieve_C_beta_coords chain_df_2) cutoff = [] := by
    simp only [obtain_interface_residues]
    by_cases hps : interfacePairs (retrieve_C_beta_coords chain_df_1)
        (retrieve_C_beta_coords chain_df_2) cutoff = []
    · rw [if_pos hps]
      simp [hps]
    · rw [if_neg hps]
      simp [hps]
  have hchar : ∀ i j, ((i, j) ∈ interfacePairs (retrieve_C_beta_coords chain_df_1)
      (retrieve_C_beta_coords chain_df_2) cutoff ↔
        i < (retrieve_C_beta_coords chain_df_1).length ∧
          j < (retrieve_C_beta_coords chain_df_2).length ∧
          Real.sqrt ((sqDist ((retrieve_C_beta_coords chain_df_1).getD i origin)
              ((retrieve_C_beta_coords chain_df_2).getD j origin) : ℚ) : ℝ) < (cutoff : ℝ)) := by
    intro i j
    rw [mem_interfacePairs]
    exact and_congr_right fun _ => and_congr_right fun _ =>
      (sqrt_lt_cutoff (sqDist_nonneg _ _) hc).symm
  refine ⟨?_, ?_, ?_⟩
  · intro r1 r2 h i j
    obtain ⟨hne, h1, h2⟩ := obtain_interface_residues_some h
    have hzip : r1.zip r2 = interfacePairs (retrieve_C_beta_coords chain_df_1)
        (retrieve_C_beta_coords chain_df_2) cutoff := (List.zip_of_prod h1.symm h2.symm).symm
    rw [hzip]
    exact hchar i j
  · rw [hnone]
    constructor
    · intro hps i j hi hj hsq
      have hmem : (i, j) ∈ interfacePairs (retrieve_C_beta_coords chain_df_1)
          (retrieve_C_beta_coords chain_df_2) cutoff := (hchar i j).mpr ⟨hi, hj, hsq⟩
      rw [hps] at hmem
      exact absurd hmem (List.not_mem_nil _)
    · intro hall
      by_contra hne
      obtain ⟨p, hp⟩ := List.exists_mem_of_ne_nil _ hne
      have hp2 : (p.1, p.2) ∈ interfacePairs (retrieve_C_beta_coords chain_df_1)
          (retrieve_C_beta_coords chain_df_2) cutoff := by
        rw [Prod.mk.eta]
        exact hp
      obtain ⟨hi, hj, hsq⟩ := (hchar p.1 p.2).mp hp2
      exact hall p.1 p.2 hi hj hsq
  · intro h0
    rw [hnone]
    by_contra hne
    obtain ⟨p, hp⟩ := List.exists_mem_of_ne_nil _ hne
    have hp2 : (p.1, p.2) ∈ interfacePairs (retrieve_C_beta_coords chain_df_1)
        (retrieve_C_beta_coords chain_df_2) cutoff := by
      rw [Prod.mk.eta]
      exact hp
    obtain ⟨hi, hj, _⟩ := (hchar p.1 p.2).mp hp2
    rcases h0 with h0 | h0
    · rw [h0] at hi
      simp at hi
    · rw [h0] at hj
      simp at hj

/-- Claim C7 witness: for the two one-residue chains at distance 1 and
cutoff 12 the detector returns `([0], [0])`, and the characterisation
applied to the pair `(0, 0)` yields its in-range, below-cutoff facts. -/
theorem obtain_interface_residues_spec_witness :
    0 < (retrieve_C_beta_coords chainDfA).length ∧
      0 < (retrieve_C_beta_coords chainDfB).length ∧
      Real.sqrt ((sqDist ((retrieve_C_beta_coords chainDfA).getD 0 origin)
          ((retrieve_C_beta_coords chainDfB).getD 0 origin) : ℚ) : ℝ) < ((12 : ℚ) : ℝ) :=
  ((obtain_interface_residues_spec chainDfA chainDfB 12 (by norm_num)).1 [0] [0]
    detector_eval_AB 0 0).mp (by decide)

/-- Claim C10: whenever `obtain_interface_residues` detects an interface, the
two returned index arrays have equal length, and the parallel `(i, j)` pairs
come in the deterministic row-major order of `np.where`: strictly increasing
lexicographically (nondecreasing chain-1 index; for equal chain-1 indices,
increasing chain-2 index). -/
theorem obtain_interface_residues_sorted (chain_df_1 chain_df_2 : List AtomRecord)
    (cutoff : ℚ) (r1 r2 : List ℕ)
    (h : obtain_interface_residues chain_df_1 chain_df_2 cutoff = some (r1, r2)) :
    r1.length = r2.length ∧
      (r1.zip r2).Pairwise (fun p q => p.1 < q.1 ∨ (p.1 = q.1 ∧ p.2 < q.2)) := by
  obtain ⟨hne, h1, h2⟩ := obtain_interface_residues_some h
  constructor
  · rw [h1, h2, List.length_map, List.length_map]
  · have hzip : r1.zip r2 = interfacePairs (retrieve_C_beta_coords chain_df_1)
        (retrieve_C_beta_coords chain_df_2) cutoff := (List.zip_of_prod h1.symm h2.symm).symm
    rw [hzip]
    unfold interfacePairs
    rw [List.pairwise_flatMap]
    constructor
    · intro a ha
      rw [List.pairwise_map]
      refine List.Pairwise.imp ?_ ((List.pairwise_lt_range _).filter _)
      intro b c hbc
      exact Or.inr ⟨rfl, hbc⟩
    · refine List.Pairwise.imp ?_ (List.pairwise_lt_range _)
      intro a b hab
      intro x hx y hy
      obtain ⟨jx, _, rfl⟩ := List.mem_map.1 hx
      obtain ⟨jy, _, rfl⟩ := List.mem_map.1 hy
      exact Or.inl hab

/-- Claim C10 witness: the detector result on the concrete one-pair example
has parallel arrays of equal length in sorted order. -/
theorem obtain_interface_residues_sorted_witness :
    ([0] : List ℕ).length = ([0] : List ℕ).length ∧
      (([0] : List ℕ).zip [0]).Pairwise (fun p q => p.1 < q.1 ∨ (p.1 = q.1 ∧ p.2 < q.2)) :=
  obtain_interface_residues_sorted chainDfA chainDfB 12 [0] [0] detector_eval_AB

/-! ### Claim C2 -/

/-- Claim C2 (code bug): the `except:` branch of `run_and_summarise_pi_score`
— the path taken when the subprocess fails or its output files are absent —
itself raises: `pd.DataFrame.from_dict({ filtered_df })` evaluates a set
display whose sole element is a dict, and hashing the dict raises
`TypeError: unhashable type`, so the adapter never returns the all-sentinel
row and does abort the run. -/
theorem piScoreFailureBranch_raises :
    piScoreFailureBranch "A_B" = Except.error "TypeError: unhashable type" := rfl

/-! ### Claim C3 -/

/-- Claim C3 (code bug): set_structure on the Bio.PDB writer replaces the
held structure,
so the "complex" temporary file receives only the atoms of chain 2.  For
chains `[0]` and `[1]` the saved complex equals `[1]`, atom `0` of chain 1 is absent
from it, and under the concrete oracle `atomScore` the returned value is
`E([1]) - E([0]) - E([1]) = -1` rather than the score difference of a
two-chain complex (which would be `0` for this additive oracle). -/
theorem calculate_binding_energy_complex_drops_chain_1 :
    complexStructureOf [0] [1] = [1] ∧ (0 : ℕ) ∉ complexStructureOf [0] [1] ∧
      calculate_binding_energy atomScore [0] [1] = -1 := by
  refine ⟨rfl, by decide, ?_⟩
  simp only [calculate_binding_energy, complexStructureOf, atomScore, PdbWriter.save,
    PdbWriter.set_structure, Option.getD_some, List.map_cons, List.map_nil, List.sum_cons,
    List.sum_nil]
  norm_num

/-! ### Claim C4 -/

/-- Claim C4 (code bug): `pi_score_df` is rebound on every loop iteration and
the left merge runs once after the loop, so only the quality
fragment of the LAST pair is merged.  With three chains (pairs `A_B`, `A_C`, `B_C`) and a
per-pair fragment labelled by its own pair, the rows for `A_B` and `A_C` get
no quality payload (`none`, pandas NaN) while only `B_C` carries one — not
one fragment per pair as claimed. -/
theorem pdbAnalyserCall_uses_last_fragment_only :
    pdbAnalyserCall [("A", "B"), ("A", "C"), ("B", "C")]
        (fun p => [(p, p)]) (fun p => p) =
      [(("A", "B"), ("A", "B"), none), (("A", "C"), ("A", "C"), none),
        (("B", "C"), ("B", "C"), some ("B", "C"))] := by
  rfl

/-! ### Claim C5 -/

theorem mirrorFold_mono {V : Type} :
    ∀ (L : List Label) (cur : List (Label × V)) (r : Label × V), r ∈ cur →
      r ∈ L.foldl (fun cur2 lbl =>
        cur2 ++ (cur2.filter (fun s => decide (s.1 = lbl))).map
          (fun s => ((lbl.2, lbl.1), s.2))) cur := by
  intro L
  induction L with
  | nil => intro cur r hr; exact hr
  | cons lbl L ih =>
    intro cur r hr
    exact ih _ r (List.mem_append_left _ hr)

theorem mirrorFold_invariant {V : Type} :
    ∀ (L : List Label) (cur : List (Label × V)),
      (∀ r ∈ cur, ((r.1.2, r.1.1), r.2) ∈ cur ∨ r.1 ∈ L) →
      ∀ r ∈ L.foldl (fun cur2 lbl =>
          cur2 ++ (cur2.filter (fun s => decide (s.1 = lbl))).map
            (fun s => ((lbl.2, lbl.1), s.2))) cur,
        ((r.1.2, r.1.1), r.2) ∈ L.foldl (fun cur2 lbl =>
          cur2 ++ (cur2.filter (fun s => decide (s.1 = lbl))).map
            (fun s => ((lbl.2, lbl.1), s.2))) cur := by
  intro L
  induction L with
  | nil =>
    intro cur hinv r hr
    rcases hinv r hr with hmir | hmem
    · exact hmir
    · exact absurd hmem (List.not_mem_nil _)
  | cons lbl L ih =>
    intro cur hinv
    refine ih _ ?_
    intro r hr
    rcases List.mem_append.1 hr with hrc | hrm
    · rcases hinv r hrc with hmir | hlbl
      · exact Or.inl (List.mem_append_left _ hmir)
      · rcases List.mem_cons.1 hlbl with heq | hL
        · refine Or.inl (List.mem_append_right _ ?_)
          refine List.mem_map.2 ⟨r, List.mem_filter.2 ⟨hrc, by simp [heq]⟩, ?_⟩
          rw [heq]
        · exact Or.inr hL
    · obtain ⟨s, hs, rfl⟩ := List.mem_map.1 hrm
      have hsf := List.mem_filter.1 hs
      have hs1 : s.1 = lbl := of_decide_eq_true hsf.2
      refine Or.inl (List.mem_append_left _ ?_)
      have heq2 : ((((lbl.2, lbl.1) : Label).2, ((lbl.2, lbl.1) : Label).1), s.2) = s := by
        show ((lbl.1, lbl.2), s.2) = s
        rw [← hs1, Prod.mk.eta]
      rw [heq2]
      exact hsf.1

theorem mirrorPass_mem {V : Type} (t : List (Label × V)) :
    ∀ r ∈ mirrorPass t, ((r.1.2, r.1.1), r.2) ∈ mirrorPass t := by
  intro r hr
  unfold mirrorPass at hr ⊢
  exact mirrorFold_invariant _ t (fun s hs => Or.inr (List.mem_map_of_mem _ hs)) r hr

/-- Claim C5 (amended): provided the merged table contains every tool-internal
bookkeeping column (so the `drop` succeeds and the remirroring loop runs),
every interface label `A_B` present in the table returned by the
nonempty-data branch of `run_and_summarise_pi_score` has the reverse-order
label `B_A` present with the same metric payload.  When the drop raises, the
swallowed exception leaves the un-remirrored inner merge, which has no
mirrored labels (the pre-merge mirrors were discarded by the inner merge) —
see the counterexample. -/
theorem runSuccessBranch_mirrors {V W : Type} (filteredCols piCols : List String)
    (filtered : List (Label × V)) (piScore : List (Label × W))
    (hdrop : piScoreDropCols.all (fun c => (filteredCols ++ piCols).contains c) = true) :
    ∀ r ∈ runSuccessBranch filteredCols piCols filtered piScore,
      ((r.1.2, r.1.1), r.2) ∈ runSuccessBranch filteredCols piCols filtered piScore := by
  intro r hr
  simp only [runSuccessBranch, if_pos hdrop] at hr ⊢
  exact mirrorPass_mem _ r hr

/-- Claim C5 witness: with all five bookkeeping columns present across the
two column lists, the returned table contains the mirrored row
`(("B","A"), (0, 5))` for the merged row labelled `("A","B")`. -/
theorem runSuccessBranch_mirrors_witness :
    (("B", "A"), ((0 : ℕ), (5 : ℕ))) ∈
      runSuccessBranch ["pdb", "chains"] ["#PDB", " pvalue", "predicted_class"]
        [(("A", "B"), (0 : ℕ))] [(("A", "B"), (5 : ℕ))] :=
  runSuccessBranch_mirrors ["pdb", "chains"] ["#PDB", " pvalue", "predicted_class"]
    [(("A", "B"), (0 : ℕ))] [(("A", "B"), (5 : ℕ))] (by decide)
    (("A", "B"), ((0 : ℕ), (5 : ℕ))) (by decide)

/-- Claim C5 counterexample: when a bookkeeping column is absent (here the
column lists lack `predicted_class` among others), the drop raises, the
`except: pass` swallows it, and the branch returns exactly one row labelled
`("A","B")` with no mirrored `("B","A")` row: the claim fails on the
returned merge. -/
theorem runSuccessBranch_drop_failure_no_mirror :
    runSuccessBranch ["pdb"] ["pi_score"] [(("A", "B"), (0 : ℕ))] [(("A", "B"), (5 : ℕ))] =
      [(("A", "B"), ((0 : ℕ), (5 : ℕ)))] := by
  decide

/-! ### Claim C9 -/

/-- Claim C9 counterexample: a chain dataframe with two CB rows for the same
residue index (as altloc duplicates produce) yields two representative
coordinates for that residue: the mask is a pure row filter with no
per-residue deduplication, so "at most one representative per residue
index" fails for such a chain. -/
theorem retrieve_C_beta_coords_duplicate :
    repResidueIndices [⟨0, "ALA", "CB", ⟨0, 0, 0⟩⟩, ⟨0, "ALA", "CB", ⟨1, 0, 0⟩⟩] = [0, 0] ∧
      retrieve_C_beta_coords [⟨0, "ALA", "CB", ⟨0, 0, 0⟩⟩, ⟨0, "ALA", "CB", ⟨1, 0, 0⟩⟩] =
        [⟨0, 0, 0⟩, ⟨1, 0, 0⟩] :=
  ⟨rfl, rfl⟩

/-- Claim C9 (amended): for well-formed chain dataframes — at most one CB row
per residue index, at most one CA row per residue index, glycine rows never
carrying a CB atom, and rows that share a residue index sharing a residue
name — the representative rows have pairwise distinct residue indices; and,
unconditionally, a residue index none of whose rows passes the
beta-carbon/glycine-alpha-carbon mask contributes no representative. -/
theorem retrieve_C_beta_coords_unique (chain_df : List AtomRecord)
    (hCB : ((chain_df.filter (fun r => decide (r.atom_name = "CB"))).map
      (fun r => r.residue_index)).Nodup)
    (hCA : ((chain_df.filter (fun r => decide (r.atom_name = "CA"))).map
      (fun r => r.residue_index)).Nodup)
    (hGly : ∀ r ∈ chain_df, r.residue_name = "GLY" → r.atom_name ≠ "CB")
    (hCons : ∀ r ∈ chain_df, ∀ s ∈ chain_df, r.residue_index = s.residue_index →
      r.residue_name = s.residue_name) :
    (repResidueIndices chain_df).Nodup ∧
      ∀ k, (∀ r ∈ chain_df, r.residue_index = k → ¬ cBetaPred r) →
        k ∉ repResidueIndices chain_df := by
  constructor
  · have hCB2 : chain_df.Pairwise (fun a b => a.atom_name = "CB" → b.atom_name = "CB" →
        a.residue_index ≠ b.residue_index) :=
      List.pairwise_filter.1 (List.pairwise_map.1 hCB)
    have hCA2 : chain_df.Pairwise (fun a b => a.atom_name = "CA" → b.atom_name = "CA" →
        a.residue_index ≠ b.residue_index) :=
      List.pairwise_filter.1 (List.pairwise_map.1 hCA)
    unfold repResidueIndices retrieve_C_beta_rows
    refine List.pairwise_map.2 (List.pairwise_filter.2 ?_)
    refine List.Pairwise.imp_of_mem ?_ (hCB2.and hCA2)
    intro a b ha hb hab hpa hpb heq
    rcases hpa with ha1 | ⟨hag, ha2⟩
    · rcases hpb with hb1 | ⟨hbg, hb2⟩
      · exact hab.1 ha1 hb1 heq
      · have hnames : a.residue_name = b.residue_name := hCons a ha b hb heq
        exact absurd ha1 (hGly a ha (hnames.trans hbg))
    · rcases hpb with hb1 | ⟨hbg, hb2⟩
      · have hnames : a.residue_name = b.residue_name := hCons a ha b hb heq
        exact absurd hb1 (hGly b hb (hnames.symm.trans hag))
      · exact hab.2 ha2 hb2 heq
  · intro k hk hmem
    unfold repResidueIndices at hmem
    obtain ⟨r, hr, hrk⟩ := List.mem_map.1 hmem
    have hrf := List.mem_filter.1 hr
    exact hk r hrf.1 hrk (of_decide_eq_true hrf.2)

/-- Claim C9 witness: on the well-formed example chain (a glycine with CA, an
alanine with CB, a nitrogen row with no representative) the representative
residue indices are pairwise distinct. -/
theorem retrieve_C_beta_coords_unique_witness :
    (repResidueIndices chainDfWellFormed).Nodup :=
  (retrieve_C_beta_coords_unique chainDfWellFormed (by decide) (by decide) (by decide)
    (by decide)).1
